import Mathlib

/-!
Verification of the Guahh retrieval-and-generation engine (`src/engine.js`)
against its natural-language specification.  The JavaScript source is shallowly
embedded: pure string/number helpers become Lean functions on `String`, `List`,
`ℚ` and `ℝ` (floating-point arithmetic is modelled by real arithmetic), the
engine's mutable fields become an explicit `EngineState` record threaded through
the operations, `Math.random()` becomes an injected stream `ℕ → ℝ` of draws in
`[0,1)`, and the recursive validator retry of `generateNeuralText` is given an
explicit attempt budget (fuel) so that its non-termination is expressible as
`= none` for every budget.
-/

namespace Guahh

/-! ### JavaScript string primitives -/

/-- `text.toLowerCase()` (the engine only ever feeds ASCII text through this). -/
def jsToLower (s : String) : String := ⟨s.data.map Char.toLower⟩

/-- Auxiliary splitter for `String.prototype.split(/\s+/)`, structurally
recursive on a fuel bound that dominates the character-list length: the field
before the first whitespace run, then recursively the fields after it.  With
fuel `≥ cs.length` the fuel-exhausted branch is only reached on `[]`, where it
agrees with the main branch. -/
def jsSplitWSAux : Nat → List Char → List (List Char)
  | 0, cs => [cs.takeWhile (fun c => !c.isWhitespace)]
  | fuel+1, cs =>
    let f := cs.takeWhile (fun c => !c.isWhitespace)
    let rest := cs.dropWhile (fun c => !c.isWhitespace)
    f :: (if rest.isEmpty then [] else jsSplitWSAux fuel (rest.dropWhile Char.isWhitespace))

/-- `text.split(/\s+/)`: fields between maximal whitespace runs.  JavaScript
semantics: the empty string splits to `[""]`, and leading/trailing whitespace
contributes an empty leading/trailing field. -/
def jsSplitWS (s : String) : List String :=
  (jsSplitWSAux s.data.length s.data).map (fun cs => ⟨cs⟩)

/-! ### Tokenizer (`tokenize`, engine.js lines 69–75) -/

/-- `tokenize(text)`: lowercase, strip every character outside `[a-z0-9\s]`,
split on whitespace runs, keep only tokens of length `> 2`.  (The JS guard
`if (!text) return []` agrees with this on the empty string, since `"" ↦ [""]`
is removed by the length filter.) -/
def tokenize (text : String) : List String :=
  let cleaned : String :=
    ⟨(jsToLower text).data.filter (fun c => c.isLower || c.isDigit || c.isWhitespace)⟩
  (jsSplitWS cleaned).filter (fun w => 2 < w.length)

/-! ### Similarity (`computeSimilarity`, engine.js lines 506–512) -/

/-- The word set JavaScript actually computes: `new Set(text.toLowerCase().split(/\s+/))`.
Note the empty string contributes the singleton set `{""}`. -/
def jsWordSet (text : String) : Finset String := (jsSplitWS (jsToLower text)).toFinset

/-- `computeSimilarity(text1, text2)`: Jaccard ratio of the two split word sets,
with the (dead, see `jsWordSet_nonempty`) guard returning 0 on an empty union. -/
def computeSimilarity (text1 text2 : String) : ℚ :=
  let s1 := jsWordSet text1
  let s2 := jsWordSet text2
  let inter := s1 ∩ s2
  let union := s1 ∪ s2
  if union.card = 0 then 0 else (inter.card : ℚ) / union.card

/-! ### Remaining JavaScript string helpers -/

/-- `text.trim()`: strip leading and trailing whitespace. -/
def jsTrim (s : String) : String :=
  ⟨((s.data.dropWhile Char.isWhitespace).reverse.dropWhile Char.isWhitespace).reverse⟩

/-- `hay.includes(pat)` on character lists: some suffix of `hay` starts with `pat`. -/
def containsSubAux (pat : List Char) : List Char → Bool
  | [] => pat.isPrefixOf []
  | c :: cs => pat.isPrefixOf (c :: cs) || containsSubAux pat cs

/-- `hay.includes(pat)` / an unanchored plain-string regex test. -/
def containsSub (pat hay : String) : Bool := containsSubAux pat.data hay.data

/-- The apostrophe character, `'`. -/
def apos : Char := Char.ofNat 39

/-- JS `\w` word characters `[A-Za-z0-9_]`, used by the `\b` boundaries below. -/
def isJsWordChar (c : Char) : Bool := c.isAlphanum || c = '_'

/-- Global replacement of `/\bpat\b/g` for a pattern whose first and last
characters are word characters (true of all four patterns in
`preprocessQuery`): scan left to right, replacing a match whenever the
preceding original character (if any) and the character following the match
(if any) are not word characters.  After a replacement the scan resumes after
the matched text, with the boundary context taken from the original string.
Fuel-structured; fuel `≥ cs.length` never runs out for nonempty `pat`. -/
def replaceWBAux (pat repl : List Char) : Nat → Option Char → List Char → List Char
  | 0, _, cs => cs
  | fuel+1, prev, cs =>
    match cs with
    | [] => []
    | c :: cs' =>
      if (match prev with | none => true | some p => !isJsWordChar p)
          && pat.isPrefixOf (c :: cs')
          && (match (c :: cs').drop pat.length with
              | [] => true
              | d :: _ => !isJsWordChar d) then
        repl ++ replaceWBAux pat repl fuel pat.getLast? ((c :: cs').drop pat.length)
      else
        c :: replaceWBAux pat repl fuel (some c) cs'

/-- `s.replace(/\bpat\b/g, repl)` for the patterns of `preprocessQuery`. -/
def replaceWordBounded (pat repl s : String) : String :=
  ⟨replaceWBAux pat.data repl.data s.data.length none s.data⟩

/-- `"what's"` (built from `apos` to keep the source ASCII-clean). -/
def whatsPat : String := "what" ++ ⟨[apos]⟩ ++ "s"

/-- `"who's"`. -/
def whosPat : String := "who" ++ ⟨[apos]⟩ ++ "s"

/-- `"how's"`. -/
def howsPat : String := "how" ++ ⟨[apos]⟩ ++ "s"

/-- `preprocessQuery(query)`, engine.js lines 80–93: lowercase and trim, then
expand the four abbreviation patterns by word-bounded global replacement.
(The declared stopword list is dead code and touches nothing here.) -/
def preprocessQuery (query : String) : String :=
  let cleaned := jsTrim (jsToLower query)
  replaceWordBounded howsPat "how is"
    (replaceWordBounded whosPat "who is"
      (replaceWordBounded whatsPat "what is"
        (replaceWordBounded "ai" "artificial intelligence" cleaned)))

/-- The meta-intent regexes of `isMetaQuery` (engine.js lines 97–107), expanded
alternation by alternation into plain lowercase substrings; all are unanchored
and case-insensitive. -/
def metaPatterns : List String :=
  ["who are you", "what are you", "what is you", "your name", "what can you do",
   "what are your purpose", "what is your purpose", "what are your function",
   "what is your function", "how do you work", "tell me about yourself",
   "introduce yourself", "what are guahh", "what is guahh"]

/-- `isMetaQuery(query)`: does any meta pattern occur in the query
(case-insensitively)? -/
def isMetaQuery (query : String) : Bool :=
  metaPatterns.any (fun p => containsSub p (jsToLower query))

/-! ### Sampler (`sampleWithTemperature`, engine.js lines 444–480)

A frequency table (a JS object `word → count`) is modelled as an association
list in key-insertion order, with real-valued counts since the sampler does
floating-point arithmetic on them.  `Math.pow` on nonnegative reals is
`Real.rpow` (`^` below). -/

/-- The candidate distribution computed by `sampleWithTemperature` before
sorting: each count is divided by the total, raised to `1/temperature`, and
the results are normalized to sum to 1. -/
noncomputable def samplerProbs (candidateFreq : List (String × ℝ)) (temperature : ℝ) :
    List (String × ℝ) :=
  let total := (candidateFreq.map Prod.snd).sum
  let raw := candidateFreq.map (fun p => (p.1, (p.2 / total) ^ (1 / temperature)))
  let probSum := (raw.map Prod.snd).sum
  raw.map (fun p => (p.1, p.2 / probSum))

/-- Modelled from the spec (§4.5 step 1): the reference distribution — raise
each raw count to `count^(1/temperature)` first, then normalize so the
probabilities sum to 1. -/
noncomputable def specProbs (candidateFreq : List (String × ℝ)) (temperature : ℝ) :
    List (String × ℝ) :=
  let raw := candidateFreq.map (fun p => (p.1, p.2 ^ (1 / temperature)))
  let probSum := (raw.map Prod.snd).sum
  raw.map (fun p => (p.1, p.2 / probSum))

/-- The nucleus loop of `sampleWithTemperature` (lines 463–469): walk the
probability-sorted candidates accumulating `cumSum`, pushing each candidate,
and stop right after the cumulative sum reaches `topP`. -/
noncomputable def buildNucleus (topP : ℝ) : ℝ → List (String × ℝ) → List (String × ℝ)
  | _, [] => []
  | acc, p :: rest =>
    if topP ≤ acc + p.2 then [p] else p :: buildNucleus topP (acc + p.2) rest

/-- The drawing loop (lines 473–477): return the first candidate whose running
cumulative probability reaches the draw, `none` if the loop falls through. -/
noncomputable def sampleLoop (rand : ℝ) : ℝ → List (String × ℝ) → Option String
  | _, [] => none
  | running, p :: rest =>
    if rand ≤ running + p.2 then some p.1 else sampleLoop rand (running + p.2) rest

/-- `sampleWithTemperature(candidateFreq, temperature, topP)` with the
`Math.random()` draw injected as `rand01`: `null` on an empty table, otherwise
temperature-scale, sort by descending probability (stably, as JS `sort` with
comparator `b.prob - a.prob`), truncate to the nucleus, scale the draw by the
nucleus mass, and draw — falling back to the nucleus head if the loop falls
through. -/
noncomputable def sampleWithTemperature (candidateFreq : List (String × ℝ))
    (temperature topP rand01 : ℝ) : Option String :=
  if candidateFreq.isEmpty then none
  else
    let probs := (samplerProbs candidateFreq temperature).mergeSort
      (fun a b => decide (b.2 ≤ a.2))
    let nucleus := buildNucleus topP 0 probs
    let rand := rand01 * (nucleus.map Prod.snd).sum
    match sampleLoop rand 0 nucleus with
    | some w => some w
    | none => nucleus.head?.map Prod.fst

/-! ### Retrieval (`retrieveRelevant`, engine.js lines 302–345) -/

/-- A loaded corpus entry: question, answer, precomputed question tokens. -/
structure MemEntry where
  q : String
  a : String
  tokens : List String
deriving DecidableEq

/-- An entry paired with its relevance score. -/
structure ScoredEntry where
  doc : MemEntry
  score : ℝ

/-- Document frequency of a term: how many corpus entries contain it (the JS
code counts each entry's de-duplicated token set, i.e. each entry at most
once). -/
def docFreq (memory : List MemEntry) (t : String) : ℕ :=
  (memory.filter (fun e => e.tokens.contains t)).length

/-- The per-entry score computed inside `retrieveRelevant`: Jaccard-style base
score times an IDF booster, capped at 1.  `max (docFreq …) 1` is the JS
`df[t] || 1` guard. -/
noncomputable def entryScore (memory : List MemEntry) (qTokens : List String)
    (entry : MemEntry) : ℝ :=
  let totalDocs := memory.length
  let matched := qTokens.filter (fun t => entry.tokens.contains t)
  let overlap := matched.length
  let weightedScore := (matched.map (fun t =>
    Real.log ((totalDocs : ℝ) / ((max (docFreq memory t) 1 : ℕ) : ℝ)))).sum
  let union := (entry.tokens ++ qTokens).dedup.length
  let baseScore : ℝ := if union = 0 then 0 else (overlap : ℝ) / (union : ℝ)
  min (baseScore * (1 + weightedScore / 10)) 1

/-- `retrieveRelevant(qTokens)`: score every entry, drop scores ≤ 0.05, sort
descending by score (stably, as JS `sort` with comparator `b.score - a.score`),
and keep the top 15. -/
noncomputable def retrieveRelevant (qTokens : List String) (memory : List MemEntry) :
    List ScoredEntry :=
  if qTokens.isEmpty then []
  else
    (((memory.map (fun e => ⟨e, entryScore memory qTokens e⟩)).filter
        (fun s => decide ((0.05:ℝ) < s.score))).mergeSort
        (fun a b => decide (b.score ≤ a.score))).take 15

/-! ### N-gram generation (`generateNeuralText`, engine.js lines 361–439) -/

/-- Association-list lookup, modelling JS object property access / `Map.get`
(string keys, insertion order). -/
def alistGet {α : Type} (k : String) : List (String × α) → Option α
  | [] => none
  | (k', v) :: rest => if k' = k then some v else alistGet k rest

/-- Association-list update, modelling JS object property assignment /
`Map.set`: an existing key keeps its position, a new key is appended. -/
def alistSet {α : Type} (k : String) (v : α) : List (String × α) → List (String × α)
  | [] => [(k, v)]
  | (k', v') :: rest => if k' = k then (k', v) :: rest else (k', v') :: alistSet k v rest

/-- The six punctuation characters the generator spaces out and re-attaches. -/
def punctChars : List Char := ['.', ',', '!', '?', ';', ':']

/-- `sourceText.replace(/([.,!?;:])/g, " $1 ")`: spaces around punctuation so
it tokenizes as standalone words. -/
def spacePunct (s : String) : String :=
  ⟨s.data.flatMap (fun c => if punctChars.contains c then [' ', c, ' '] else [c])⟩

/-- The generator's word sequence (line 362): space punctuation, split on
whitespace, drop empty fields (JS `.filter(w => w)`). -/
def genWords (sourceText : String) : List String :=
  (jsSplitWS (spacePunct sourceText)).filter (fun w => !w.isEmpty)

/-- Bump a frequency count: `tbl[k] = (tbl[k] || 0) + 1`. -/
def bumpFreq (k : String) (tbl : List (String × ℝ)) : List (String × ℝ) :=
  alistSet k ((alistGet k tbl).getD 0 + 1) tbl

/-- Bump a nested table: `if (!t[k1]) t[k1] = {}; t[k1][k2] = (t[k1][k2] || 0) + 1`. -/
def bumpTable (k1 k2 : String) (tbl : List (String × List (String × ℝ))) :
    List (String × List (String × ℝ)) :=
  alistSet k1 (bumpFreq k2 ((alistGet k1 tbl).getD [])) tbl

/-- The n-gram model built per generation call. -/
structure NGrams where
  bigrams : List (String × List (String × ℝ))
  trigrams : List (String × List (String × ℝ))
  starters : List String

/-- Build bigram/trigram frequency tables and the sentence-starter list from
the word sequence (engine.js lines 369–387): for each window `w1 w2 w3`,
count `w1 → w2` and `"w1 w2" → w3`, and record `w1` as a starter when `i = 0`
or `".!?".includes(words[i-1])`. -/
def buildNGrams (words : List String) : NGrams :=
  (List.range (words.length - 2)).foldl (fun st i =>
    let w1 := words.getD i ""
    let w2 := words.getD (i+1) ""
    let w3 := words.getD (i+2) ""
    { bigrams := bumpTable w1 w2 st.bigrams
      trigrams := bumpTable (w1 ++ " " ++ w2) w3 st.trigrams
      starters := st.starters ++
        (if i = 0 || containsSub (words.getD (i-1) "") ".!?" then [w1] else []) })
    { bigrams := [], trigrams := [], starters := [] }

/-- One generation walk (the `for` loop of engine.js lines 396–425):
`remaining` counts the iterations left, `k` is the next random-draw index,
`i` the JS loop counter.  Prefer the trigram pool when a previous word exists
and the trigram key is present; otherwise the bigram pool; stop on a missing
or empty pool, a failed sample, or sentence-ending punctuation once `i > 15`. -/
noncomputable def genLoop (big tri : List (String × List (String × ℝ)))
    (temperature topP : ℝ) (rand : ℕ → ℝ) :
    ℕ → ℕ → ℕ → Option String → String → List String → List String × ℕ
  | 0, k, _, _, _, output => (output, k)
  | remaining+1, k, i, prevWord, currentWord, output =>
    let pool : Option (List (String × ℝ)) :=
      match prevWord with
      | some pw =>
        match alistGet (pw ++ " " ++ currentWord) tri with
        | some tbl => some tbl
        | none => alistGet currentWord big
      | none => alistGet currentWord big
    match pool with
    | none => (output, k)
    | some tbl =>
      if tbl.isEmpty then (output, k)
      else
        match sampleWithTemperature tbl temperature topP (rand k) with
        | none => (output, k)
        | some next =>
          if 15 < i ∧ containsSub next ".!?" = true then (output ++ [next], k + 1)
          else genLoop big tri temperature topP rand remaining (k + 1) (i + 1)
            (some currentWord) next (output ++ [next])

/-- `/^([a-z])/` capitalization of the first character. -/
def capitalizeFirst (s : String) : String :=
  match s.data with
  | [] => s
  | c :: cs => if c.isLower then ⟨c.toUpper :: cs⟩ else s

/-- `/\s+([.,!?;:])/g → "$1"`: drop each whitespace run that precedes a
punctuation character.  Fuel-structured on the character-list length. -/
def fixPunctAux : ℕ → List Char → List Char
  | 0, cs => cs
  | fuel+1, cs =>
    match cs with
    | [] => []
    | c :: rest =>
      if c.isWhitespace then
        match (c :: rest).dropWhile Char.isWhitespace with
        | d :: after =>
          if punctChars.contains d then fixPunctAux fuel (d :: after)
          else c :: fixPunctAux fuel rest
        | [] => c :: fixPunctAux fuel rest
      else c :: fixPunctAux fuel rest

/-- Detokenize (lines 428–430): join with spaces, collapse space-before-
punctuation, capitalize the first letter. -/
def postProcess (output : List String) : String :=
  let joined := String.intercalate " " output
  capitalizeFirst ⟨fixPunctAux joined.data.length joined.data⟩

/-- `validateOutput(text)` (lines 485–501) against the recent-output window:
reject text shorter than 10, unique-word ratio below 0.3, or similarity above
0.7 to any recent output. -/
def validateOutput (text : String) (recentOutputs : List String) : Bool :=
  if text.length < 10 then false
  else
    let words := jsSplitWS (jsToLower text)
    if ((words.dedup.length : ℚ) / (words.length : ℚ)) < 3/10 then false
    else !(recentOutputs.any (fun recent => 7/10 < computeSimilarity text recent))

/-- One full generation attempt (lines 361–431, without the retry): build the
n-gram model, draw a starter uniformly, walk the model, post-process.  Returns
the text and the next unused draw index.  When the word sequence is empty the
JS code pushes `words[0] = undefined` as the only starter, the walk finds no
candidate pool, and `[undefined].join(" ")` is `""` — the first branch. -/
noncomputable def generateAttempt (sourceText : String) (targetLength : ℕ)
    (temperature topP : ℝ) (rand : ℕ → ℝ) (k : ℕ) : String × ℕ :=
  let words := genWords sourceText
  if words.isEmpty then ("", k + 1)
  else
    let ng := buildNGrams words
    let starters := if ng.starters.isEmpty then [words.headD ""] else ng.starters
    let idx := (⌊rand k * (starters.length : ℝ)⌋).toNat
    let currentWord := starters.getD idx ""
    let r := genLoop ng.bigrams ng.trigrams temperature topP rand
      targetLength (k + 1) 0 none currentWord [currentWord]
    (postProcess r.1, r.2)

/-- `generateNeuralText(sourceText, targetLength)` with an explicit attempt
budget: the source retries by unbounded recursion whenever `validateOutput`
rejects (line 435, despite the `// Retry once` comment), so `none` means the
budget was exhausted with every attempt rejected — in the source, a recursion
that never returns. -/
noncomputable def generateNeuralText (fuel : ℕ) (sourceText : String)
    (targetLength : ℕ) (temperature topP : ℝ) (recentOutputs : List String)
    (rand : ℕ → ℝ) (k : ℕ) : Option (String × ℕ) :=
  match fuel with
  | 0 => none
  | fuel+1 =>
    let r := generateAttempt sourceText targetLength temperature topP rand k
    if validateOutput r.1 recentOutputs then some r
    else generateNeuralText fuel sourceText targetLength temperature topP recentOutputs rand r.2

/-! ### Engine state and the answer pipeline (`init`, `generateResponse`) -/

/-- A conversation-history record (`{query, response, timestamp}`). -/
structure HistEntry where
  query : String
  response : String
  timestamp : ℕ

/-- One element of a result's `sources` array: either a provenance tag string
or a numeric score (the JS list is heterogeneous). -/
inductive SourceTag where
  | tag : String → SourceTag
  | score : ℝ → SourceTag

/-- A `generateResponse` result `{text, sources}`. -/
structure GenResult where
  text : String
  sources : List SourceTag

/-- A dictionary record; the JS field `def` is a Lean keyword, hence `defn`. -/
structure DictEntry where
  word : String
  pos : String
  defn : String

/-- One record of the load payload: a `{type:'dict', …}` record or a QA pair. -/
inductive LoadItem where
  | dict : DictEntry → LoadItem
  | qa : String → String → LoadItem

/-- The engine's mutable fields (`GuahhEngine` object state).  JS `Map`s and
objects become association lists in insertion order; the `Set` `vocab` becomes
a duplicate-free list in insertion order. -/
structure EngineState where
  memory : List MemEntry
  dictionary : List (String × DictEntry)
  vocab : List String
  isReady : Bool
  temperature : ℝ
  topP : ℝ
  responseCache : List (String × GenResult)
  recentOutputs : List String
  conversationHistory : List HistEntry
  wikiCache : List (String × String)

/-- The field initializers of the `GuahhEngine` object literal. -/
def initialState : EngineState where
  memory := []
  dictionary := []
  vocab := []
  isReady := false
  temperature := 0.8
  topP := 0.9
  responseCache := []
  recentOutputs := []
  conversationHistory := []
  wikiCache := []

/-- `Set.add`: append if not already present. -/
def setAdd (t : String) (s : List String) : List String :=
  if s.contains t then s else s ++ [t]

/-- `init(data, logCallback)` (engine.js lines 27–67), with the payload as
`none` when absent (JS `!data`) and the log sink omitted (it only emits
messages).  Resets memory/dictionary/vocab, indexes each item, marks the
engine ready and returns `true` — for the empty payload as well, since JS
`![]` is `false`. -/
def init (data : Option (List LoadItem)) (st : EngineState) : Bool × EngineState :=
  match data with
  | none => (false, st)
  | some items =>
    let st1 := { st with memory := [], dictionary := [], vocab := ([] : List String) }
    let st2 := items.foldl (fun s item =>
      match item with
      | .dict d => { s with dictionary := alistSet d.word d s.dictionary }
      | .qa q a =>
        let tokens := tokenize q
        { s with
            memory := s.memory ++ [{ q := q, a := a, tokens := tokens }]
            vocab := tokens.foldl (fun v t => setAdd t v) s.vocab }) st1
    (true, { st2 with isReady := true })

/-- `addToHistory(query, response)` (lines 517–528): append to the
conversation history (cap 10, oldest dropped) and to the recent-output window
(cap 5, oldest dropped). -/
def addToHistory (query response : String) (now : ℕ) (st : EngineState) : EngineState :=
  let hist := st.conversationHistory ++ [{ query := query, response := response, timestamp := now }]
  let hist := if 10 < hist.length then hist.drop 1 else hist
  let recents := st.recentOutputs ++ [response]
  let recents := if 5 < recents.length then recents.drop 1 else recents
  { st with conversationHistory := hist, recentOutputs := recents }

/-- Single-character split, `clean.split(" ")`: no run merging, so doubled
separators yield empty fields; the empty string yields `[""]`. -/
def jsSplitCharAux (sep : Char) : Nat → List Char → List (List Char)
  | 0, cs => [cs.takeWhile (fun c => c != sep)]
  | fuel+1, cs =>
    let f := cs.takeWhile (fun c => c != sep)
    match cs.dropWhile (fun c => c != sep) with
    | [] => [f]
    | _ :: tail => f :: jsSplitCharAux sep fuel tail

/-- `s.split(sep)` for a single-character separator. -/
def jsSplitChar (sep : Char) (s : String) : List String :=
  (jsSplitCharAux sep s.data.length s.data).map (fun cs => ⟨cs⟩)

/-- `checkDictionaryInquiry(query)` (lines 530–542): strip to letters/spaces,
trim, and look up the whole cleaned query, then its last word. -/
def checkDictionaryInquiry (dictionary : List (String × DictEntry)) (query : String) :
    Option String :=
  let clean := jsTrim ⟨(jsToLower query).data.filter (fun c => c.isLower || c.isWhitespace)⟩
  let parts := jsSplitChar ' ' clean
  let lastWord := parts.getLastD ""
  match alistGet clean dictionary with
  | some e => some ("**" ++ e.word ++ "** (" ++ e.pos ++ "): " ++ e.defn)
  | none =>
    match alistGet lastWord dictionary with
    | some e => some ("**" ++ e.word ++ "** (" ++ e.pos ++ "): " ++ e.defn)
    | none => none

/-- `searchWikipedia(query)` (lines 115–166) as a state transformer, with the
network fetch and extract post-processing injected as `net` (the three-sentence
summary on success; `none` on no article, disambiguation, or API error — all
collapse to `null` in the source).  A cache hit returns the cached summary with
the state unchanged; a successful lookup is cached with FIFO eviction above 50
entries; a failed lookup changes nothing. -/
def searchWikipedia (query : String) (net : Option String) (st : EngineState) :
    Option String × EngineState :=
  match alistGet query st.wikiCache with
  | some cached => (some cached, st)
  | none =>
    match net with
    | none => (none, st)
    | some summary =>
      let cache := alistSet query summary st.wikiCache
      let cache := if 50 < cache.length then cache.drop 1 else cache
      (some summary, { st with wikiCache := cache })

/-- `"Neural core not initialized."` -/
def notInitText : String := "Neural core not initialized."

/-- The fixed NoMatch result text (apostrophe via `apos`). -/
def noMatchText : String :=
  "I don" ++ ⟨[apos]⟩ ++
    "t have that information yet. Try rephrasing or asking about a different topic."

/-- The fixed LowConfidence result text. -/
def lowConfText : String :=
  "I found some data, but it doesn" ++ ⟨[apos]⟩ ++
    "t seem relevant enough to answer confidently. Can you be more specific?"

/-- The fixed meta-intent identity statement. -/
def identityText : String :=
  "I am Guahh AI V6, an advanced locally-running neural system. I use temperature sampling, nucleus sampling, and sophisticated retrieval to answer questions, generate creative text, search Wikipedia, and maintain natural conversations."

/-- The long-form regex `/write|story|essay|article|explain|detail|elaborate/`,
alternation expanded into substring tests. -/
def longFormWords : List String :=
  ["write", "story", "essay", "article", "explain", "detail", "elaborate"]

/-- `isLongForm` test on the preprocessed query. -/
def isLongFormQuery (s : String) : Bool := longFormWords.any (fun w => containsSub w s)

/-- The shared tail of the local-generation branches (lines 283–296): build
the result with the top-3 scores as sources, update history, write the cache
and evict the oldest entry above 100. -/
noncomputable def finishGenerated (st : EngineState) (query cacheKey outputText : String)
    (relevantDocs : List ScoredEntry) (now : ℕ) : GenResult × EngineState :=
  let result : GenResult :=
    { text := outputText, sources := (relevantDocs.take 3).map (fun d => .score d.score) }
  let st2 := addToHistory query outputText now st
  let cache := alistSet cacheKey result st2.responseCache
  let cache := if 100 < cache.length then cache.drop 1 else cache
  (result, { st2 with responseCache := cache })

/-- `generateResponse(query)` (engine.js lines 171–297).  External inputs are
injected: `net` is the knowledge lookup outcome, `rand`/`k` the random stream
and its next index, `now` the timestamp, and `fuel` the generation attempt
budget (`none` propagates the source's non-terminating validator retry).
The pipeline: not-ready short circuit, response-cache hit, meta intent,
dictionary intent, external knowledge (cached without eviction — line 224),
then local retrieval with verbatim / generate / low-confidence branches. -/
noncomputable def generateResponse (st : EngineState) (query : String)
    (net : Option String) (rand : ℕ → ℝ) (k now fuel : ℕ) :
    Option (GenResult × EngineState) :=
  if st.isReady = false then some ({ text := notInitText, sources := [] }, st)
  else
    let cacheKey := jsTrim (jsToLower query)
    match alistGet cacheKey st.responseCache with
    | some cached => some (cached, st)
    | none =>
      let cleanQuery := preprocessQuery query
      let qTokens := tokenize cleanQuery
      if isMetaQuery query = true then
        match retrieveRelevant qTokens st.memory with
        | top :: _ =>
          if (0.5:ℝ) < top.score then
            some ({ text := top.doc.a, sources := [.tag "Local Memory"] },
              addToHistory query top.doc.a now st)
          else
            some ({ text := identityText, sources := [.tag "Core Identity"] },
              addToHistory query identityText now st)
        | [] =>
          some ({ text := identityText, sources := [.tag "Core Identity"] },
            addToHistory query identityText now st)
      else
        match checkDictionaryInquiry st.dictionary query with
        | some dictResult =>
          some ({ text := dictResult, sources := [.tag "Dictionary"] },
            addToHistory query dictResult now st)
        | none =>
          let wiki := searchWikipedia query net st
          match wiki.1 with
          | some wikiResult =>
            let result : GenResult := { text := wikiResult, sources := [.tag "Wikipedia"] }
            let st1 := addToHistory query wikiResult now wiki.2
            -- engine.js line 224: this cache write has NO capacity check.
            some (result, { st1 with responseCache := alistSet cacheKey result st1.responseCache })
          | none =>
            match retrieveRelevant qTokens wiki.2.memory with
            | [] => some ({ text := noMatchText, sources := [] }, wiki.2)
            | top :: rest =>
              if top.score < (0.1:ℝ) then
                some ({ text := noMatchText, sources := [] }, wiki.2)
              else
                let isLongForm := isLongFormQuery cleanQuery
                let maxLen : ℕ := if isLongForm then 150 else 50
                let contextSize : ℕ := if isLongForm then 15 else 7
                if (0.85:ℝ) < top.score ∧ isLongForm = false then
                  some (finishGenerated wiki.2 query cacheKey top.doc.a (top :: rest) now)
                else if (0.15:ℝ) < top.score ∨ isLongForm = true then
                  let validDocs := (top :: rest).take contextSize
                  let contextText := String.intercalate " " (validDocs.map (fun d => d.doc.a))
                  match generateNeuralText fuel contextText maxLen wiki.2.temperature
                    wiki.2.topP wiki.2.recentOutputs rand k with
                  | none => none
                  | some r =>
                    let outputText := if r.1.length < 20 then top.doc.a else r.1
                    some (finishGenerated wiki.2 query cacheKey outputText (top :: rest) now)
                else
                  some ({ text := lowConfText, sources := [] }, wiki.2)


/-! ### Concrete states used by the closed claim instances -/

/-- A placeholder cached result. -/
def dummyResult : GenResult := { text := "cached", sources := [] }

/-- A ready engine whose response cache already holds exactly 100 entries
(keys `k0` … `k99`). -/
def fullCacheState : EngineState :=
  { initialState with
      isReady := true
      responseCache := (List.range 100).map (fun i => ("k" ++ toString i, dummyResult)) }

/-- A ready engine with an empty corpus. -/
def emptyReadyState : EngineState := { initialState with isReady := true }

/-- A corpus entry with eight tokens, crafted so that the query `"apple"`
scores exactly `1/8 = 0.125` — inside the low-confidence band `[0.1, 0.15]`
(a single-entry corpus makes every IDF term `log 1 = 0`). -/
def lowConfEntry : MemEntry where
  q := "fruit list"
  a := "a list of fruits"
  tokens := ["apple", "banana", "cherry", "dragon", "eggplant", "figs", "grape", "honey"]

/-- A ready engine whose corpus is the single entry `lowConfEntry`. -/
def lowConfState : EngineState :=
  { initialState with
      isReady := true
      memory := [lowConfEntry] }

/-! ### Helper lemmas -/

/-- `jsSplitWSAux` always returns at least one field. -/
theorem jsSplitWSAux_ne_nil (fuel : Nat) (cs : List Char) : jsSplitWSAux fuel cs ≠ [] := by
  cases fuel <;> simp [jsSplitWSAux]

/-- `jsSplitWS` always returns at least one field (in particular `"" ↦ [""]`). -/
theorem jsSplitWS_ne_nil (s : String) : jsSplitWS s ≠ [] := by
  simp only [jsSplitWS, ne_eq, List.map_eq_nil_iff]
  exact jsSplitWSAux_ne_nil _ _

/-- The split word set of any string is nonempty (the empty-union guard in
`computeSimilarity` is unreachable). -/
theorem jsWordSet_nonempty (text : String) : (jsWordSet text).Nonempty := by
  have h := jsSplitWS_ne_nil (jsToLower text)
  rcases hl : jsSplitWS (jsToLower text) with _ | ⟨w, ws⟩
  · exact absurd hl h
  · exact ⟨w, by simp [jsWordSet, hl]⟩

/-- `computeSimilarity` always equals the plain Jaccard ratio: the empty-union
guard never fires because every split word set is nonempty. -/
theorem computeSimilarity_eq_jaccard (x y : String) :
    computeSimilarity x y =
      ((jsWordSet x ∩ jsWordSet y).card : ℚ) / ((jsWordSet x ∪ jsWordSet y).card) := by
  have h : (jsWordSet x ∪ jsWordSet y).card ≠ 0 := by
    have := (jsWordSet_nonempty x).mono
      (Finset.subset_union_left : jsWordSet x ⊆ jsWordSet x ∪ jsWordSet y)
    exact Finset.card_ne_zero_of_mem this.choose_spec
  simp only [computeSimilarity, if_neg h]

/-- Self-similarity is 1 for every string, the empty string included. -/
theorem computeSimilarity_self (x : String) : computeSimilarity x x = 1 := by
  rw [computeSimilarity_eq_jaccard]
  have h : (jsWordSet x).card ≠ 0 :=
    Finset.card_ne_zero_of_mem (jsWordSet_nonempty x).choose_spec
  rw [Finset.inter_self, Finset.union_self, div_self (by exact_mod_cast h)]

/-- Word-disjoint texts have similarity 0. -/
theorem computeSimilarity_of_disjoint (x y : String)
    (h : jsWordSet x ∩ jsWordSet y = ∅) : computeSimilarity x y = 0 := by
  rw [computeSimilarity_eq_jaccard, h]
  simp

/-- An empty frequency table samples to `none`. -/
theorem sampleWithTemperature_empty (temperature topP rand01 : ℝ) :
    sampleWithTemperature [] temperature topP rand01 = none := by
  simp [sampleWithTemperature]

/-- Dividing each mapped element before summing equals dividing the sum. -/
theorem sum_map_div (l : List (String × ℝ)) (f : String × ℝ → ℝ) (c : ℝ) :
    (l.map (fun p => f p / c)).sum = (l.map f).sum / c := by
  induction l with
  | nil => simp
  | cons p rest ih => simp [ih, add_div]

/-- The code's normalize-before-exponentiate distribution equals the spec's
exponentiate-then-normalize reference distribution on any nonempty table of
positive counts: the `(1/total)^(1/temperature)` factor cancels when
normalizing. -/
theorem samplerProbs_eq_specProbs (freq : List (String × ℝ)) (temperature : ℝ)
    (hne : freq ≠ []) (hpos : ∀ p ∈ freq, 0 < p.2) :
    samplerProbs freq temperature = specProbs freq temperature := by
  have hmapne : freq.map Prod.snd ≠ [] := by simpa using hne
  have hT : 0 < (freq.map Prod.snd).sum := by
    refine List.sum_pos _ (fun x hx => ?_) hmapne
    obtain ⟨p, hp, rfl⟩ := List.mem_map.1 hx
    exact hpos p hp
  set T := (freq.map Prod.snd).sum with hTdef
  set a := 1 / temperature with hadef
  have hTa : (0:ℝ) < T ^ a := Real.rpow_pos_of_pos hT a
  have hS : 0 < (freq.map (fun p => p.2 ^ a)).sum := by
    refine List.sum_pos _ (fun x hx => ?_) (by simpa using hne)
    obtain ⟨p, hp, rfl⟩ := List.mem_map.1 hx
    exact Real.rpow_pos_of_pos (hpos p hp) a
  set S := (freq.map (fun p => p.2 ^ a)).sum with hSdef
  have hraw : freq.map (fun p => (p.2 / T) ^ a) = freq.map (fun p => p.2 ^ a / T ^ a) :=
    List.map_congr_left (fun p hp => Real.div_rpow (hpos p hp).le hT.le a)
  have hPS : (freq.map (fun p => (p.2 / T) ^ a)).sum = S / T ^ a := by
    rw [hraw, sum_map_div freq (fun p => p.2 ^ a) (T ^ a), hSdef]
  simp only [samplerProbs, specProbs, List.map_map, Function.comp]
  simp only [← hTdef, ← hadef]
  rw [show (Prod.snd ∘ fun p : String × ℝ => (p.1, (p.2 / T) ^ a)) =
    (fun p : String × ℝ => (p.2 / T) ^ a) from rfl]
  rw [show (Prod.snd ∘ fun p : String × ℝ => (p.1, p.2 ^ a)) =
    (fun p : String × ℝ => p.2 ^ a) from rfl]
  rw [hPS, ← hSdef]
  refine List.map_congr_left (fun p hp => ?_)
  have h1 : (p.2 / T) ^ a = p.2 ^ a / T ^ a := Real.div_rpow (hpos p hp).le hT.le a
  simp only [Function.comp, h1]
  congr 1
  rw [div_div_div_cancel_right₀]
  exact hTa.ne.symm

/-- At temperature 1 the code's distribution is exactly each raw count divided
by the total count. -/
theorem samplerProbs_temperature_one (freq : List (String × ℝ))
    (hne : freq ≠ []) (hpos : ∀ p ∈ freq, 0 < p.2) :
    samplerProbs freq 1 = freq.map (fun p => (p.1, p.2 / (freq.map Prod.snd).sum)) := by
  have hmapne : freq.map Prod.snd ≠ [] := by simpa using hne
  have hT : 0 < (freq.map Prod.snd).sum := by
    refine List.sum_pos _ (fun x hx => ?_) hmapne
    obtain ⟨p, hp, rfl⟩ := List.mem_map.1 hx
    exact hpos p hp
  set T := (freq.map Prod.snd).sum with hTdef
  have hone : (1:ℝ) / 1 = 1 := by norm_num
  simp only [samplerProbs, List.map_map, Function.comp, ← hTdef, hone, Real.rpow_one]
  have hPS : (List.map (Prod.snd ∘ fun p : String × ℝ => (p.1, p.2 / T)) freq).sum = 1 := by
    rw [show (Prod.snd ∘ fun p : String × ℝ => (p.1, p.2 / T)) =
      (fun p : String × ℝ => p.2 / T) from rfl]
    rw [sum_map_div freq Prod.snd T, ← hTdef, div_self hT.ne.symm]
  rw [hPS]
  refine List.map_congr_left (fun p hp => ?_)
  simp [Function.comp]

/-- The nucleus loop returns a prefix of the sorted candidate list: the
smallest nonempty prefix whose cumulative probability (offset by the running
total `acc`) reaches `topP`, or the whole list when none does. -/
theorem buildNucleus_take (topP : ℝ) (l : List (String × ℝ)) : ∀ acc : ℝ, ∃ k,
    buildNucleus topP acc l = l.take k ∧ k ≤ l.length ∧ (l ≠ [] → 1 ≤ k) ∧
    (topP ≤ acc + ((l.take k).map Prod.snd).sum ∨ k = l.length) ∧
    (∀ m, 1 ≤ m → m < k → acc + ((l.take m).map Prod.snd).sum < topP) := by
  induction l with
  | nil => exact fun acc => ⟨0, by simp [buildNucleus]⟩
  | cons p rest ih =>
    intro acc
    by_cases h : topP ≤ acc + p.2
    · refine ⟨1, ?_, ?_, fun _ => le_refl 1, ?_, ?_⟩
      · simp [buildNucleus, h]
      · simp
      · left; simpa using h
      · intro m hm1 hm2; omega
    · obtain ⟨k, hk, hle, h1k, hreach, hmin⟩ := ih (acc + p.2)
      refine ⟨k + 1, ?_, ?_, fun _ => by omega, ?_, ?_⟩
      · simp [buildNucleus, h, hk]
      · simpa using Nat.succ_le_succ hle
      · rcases hreach with hr | hr
        · left; simpa [add_assoc] using hr
        · right; simp [hr]
      · intro m hm1 hm2
        match m, hm1 with
        | 1, _ =>
          simpa using lt_of_not_ge h
        | (m'+2), _ =>
          have h1 : 1 ≤ m' + 1 := by omega
          have h2 : m' + 1 < k := by omega
          have := hmin (m'+1) h1 h2
          simpa [add_assoc] using this

/-- Decreasing `topP` never increases the nucleus size. -/
theorem buildNucleus_mono (l : List (String × ℝ)) : ∀ (acc topP₁ topP₂ : ℝ), topP₁ ≤ topP₂ →
    (buildNucleus topP₁ acc l).length ≤ (buildNucleus topP₂ acc l).length := by
  induction l with
  | nil => simp [buildNucleus]
  | cons p rest ih =>
    intro acc t1 t2 h12
    by_cases h1 : t1 ≤ acc + p.2
    · by_cases h2 : t2 ≤ acc + p.2
      · simp [buildNucleus, h1, h2]
      · simp [buildNucleus, h1, h2]
    · have h2 : ¬ t2 ≤ acc + p.2 := fun hc => h1 (h12.trans hc)
      simp only [buildNucleus, if_neg h1, if_neg h2, List.length_cons]
      exact Nat.succ_le_succ (ih (acc + p.2) t1 t2 h12)

/-- With `topP = 1` and a positive distribution of total mass 1, the nucleus
is the entire candidate list: no truncation occurs. -/
theorem buildNucleus_full (l : List (String × ℝ)) : ∀ acc : ℝ,
    (∀ p ∈ l, 0 < p.2) → acc + (l.map Prod.snd).sum = 1 →
    buildNucleus 1 acc l = l := by
  induction l with
  | nil => simp [buildNucleus]
  | cons p rest ih =>
    intro acc hpos hsum
    by_cases hrest : rest = []
    · subst hrest
      simp only [List.map_cons, List.map_nil, List.sum_cons, List.sum_nil, add_zero] at hsum
      simp [buildNucleus, hsum.ge]
    · have hpossum : 0 < (rest.map Prod.snd).sum := by
        refine List.sum_pos _ (fun x hx => ?_) (by simpa using hrest)
        obtain ⟨q, hq, rfl⟩ := List.mem_map.1 hx
        exact hpos q (List.mem_cons_of_mem p hq)
      have hsum' : acc + p.2 + (rest.map Prod.snd).sum = 1 := by
        simpa [add_assoc] using hsum
      have hlt : acc + p.2 < 1 := by linarith
      rw [show buildNucleus 1 acc (p :: rest) =
        if (1:ℝ) ≤ acc + p.2 then [p] else p :: buildNucleus 1 (acc + p.2) rest from rfl]
      rw [if_neg (not_le.2 hlt)]
      rw [ih (acc + p.2) (fun q hq => hpos q (List.mem_cons_of_mem p hq)) hsum']

/-- A one-element nucleus loop keeps its single candidate in either branch. -/
theorem buildNucleus_single (topP acc : ℝ) (p : String × ℝ) :
    buildNucleus topP acc [p] = [p] := by
  simp only [buildNucleus]
  split <;> rfl

/-- A single-candidate table deterministically samples to that candidate,
whatever the count, temperature, `topP` and draw. -/
theorem sampleWithTemperature_single (w : String) (c temperature topP rand01 : ℝ) :
    sampleWithTemperature [(w, c)] temperature topP rand01 = some w := by
  simp only [sampleWithTemperature, List.isEmpty_cons, Bool.false_eq_true, if_false,
    samplerProbs, List.map_cons, List.map_nil, List.mergeSort_singleton, buildNucleus_single,
    sampleLoop]
  split
  · rename_i w2 heq
    split at heq <;> simp_all
  · simp

/-- Every score is in `[0, 1]` for entries of the corpus. -/
theorem entryScore_mem_Icc (memory : List MemEntry) (qTokens : List String)
    (e : MemEntry) (he : e ∈ memory) :
    0 ≤ entryScore memory qTokens e ∧ entryScore memory qTokens e ≤ 1 := by
  constructor
  · have hw : 0 ≤ ((qTokens.filter (fun t => e.tokens.contains t)).map (fun t =>
        Real.log ((memory.length : ℝ) / ((max (docFreq memory t) 1 : ℕ) : ℝ)))).sum := by
      refine List.sum_nonneg (fun x hx => ?_)
      obtain ⟨t, ht, rfl⟩ := List.mem_map.1 hx
      have htok : e.tokens.contains t = true := (List.mem_filter.1 ht).2
      have hd1 : 1 ≤ docFreq memory t := by
        have hmem : e ∈ memory.filter (fun e => e.tokens.contains t) :=
          List.mem_filter.2 ⟨he, htok⟩
        have hpos := List.length_pos.2 (List.ne_nil_of_mem hmem)
        simpa [docFreq] using hpos
      have hdle : docFreq memory t ≤ memory.length := List.length_filter_le _ _
      have hmax : (max (docFreq memory t) 1) = docFreq memory t := by omega
      refine Real.log_nonneg ?_
      rw [hmax]
      rw [one_le_div (by exact_mod_cast hd1)]
      exact_mod_cast hdle
    have hbase : 0 ≤ (if ((e.tokens ++ qTokens).dedup.length) = 0 then (0:ℝ) else
        ((qTokens.filter (fun t => e.tokens.contains t)).length : ℝ) /
          (((e.tokens ++ qTokens).dedup.length : ℕ) : ℝ)) := by
      split
      · exact le_refl 0
      · positivity
    refine le_min ?_ (by norm_num)
    have h10 : (0:ℝ) ≤ 1 + (((qTokens.filter (fun t => e.tokens.contains t)).map (fun t =>
        Real.log ((memory.length : ℝ) / ((max (docFreq memory t) 1 : ℕ) : ℝ)))).sum) / 10 := by
      positivity
    exact mul_nonneg hbase h10
  · exact min_le_right _ _

/-- An entry with no token in common with the query scores 0. -/
theorem entryScore_of_no_overlap (memory : List MemEntry) (qTokens : List String)
    (e : MemEntry) (h : ∀ t ∈ qTokens, t ∉ e.tokens) :
    entryScore memory qTokens e = 0 := by
  have hfilter : qTokens.filter (fun t => e.tokens.contains t) = [] := by
    refine List.filter_eq_nil_iff.2 (fun t ht => ?_)
    simpa using h t ht
  simp only [entryScore, hfilter]
  simp

/-- The retrieval result is sorted by descending score. -/
theorem retrieveRelevant_sorted (qTokens : List String) (memory : List MemEntry) :
    (retrieveRelevant qTokens memory).Pairwise (fun a b => b.score ≤ a.score) := by
  unfold retrieveRelevant
  split
  · simp
  · refine List.Pairwise.take ?_
    have h := @List.sorted_mergeSort ScoredEntry
      (fun a b : ScoredEntry => decide (b.score ≤ a.score))
      (fun a b c hab hbc => by
        simp only [decide_eq_true_eq] at *
        exact hbc.trans hab)
      (fun a b => by
        rcases le_total a.score b.score with h | h <;> simp [h])
      ((memory.map (fun e => ⟨e, entryScore memory qTokens e⟩)).filter
        (fun s => decide ((0.05:ℝ) < s.score)))
    exact h.imp (fun hab => by simpa using hab)

/-- The retrieval result is truncated to at most 15 entries. -/
theorem retrieveRelevant_length (qTokens : List String) (memory : List MemEntry) :
    (retrieveRelevant qTokens memory).length ≤ 15 := by
  unfold retrieveRelevant
  split
  · simp
  · exact List.length_take_le 15 _

/-- Every returned entry is a scored corpus entry with score above the 0.05
filter threshold. -/
theorem mem_retrieveRelevant (qTokens : List String) (memory : List MemEntry)
    (s : ScoredEntry) (hs : s ∈ retrieveRelevant qTokens memory) :
    s.doc ∈ memory ∧ s.score = entryScore memory qTokens s.doc ∧ (0.05:ℝ) < s.score := by
  unfold retrieveRelevant at hs
  split at hs
  · simp at hs
  · have h1 := List.mem_of_mem_take hs
    rw [List.mem_mergeSort] at h1
    have h2 := List.mem_filter.1 h1
    obtain ⟨e, he, rfl⟩ := List.mem_map.1 h2.1
    refine ⟨he, rfl, by simpa using h2.2⟩

/-- The empty context has no words. -/
theorem genWords_empty : genWords "" = [] := by decide

/-- The context `"xy"` has the single word `"xy"`. -/
theorem genWords_xy : genWords "xy" = ["xy"] := by decide

/-- On a wordless context every attempt produces the empty string and consumes
one draw. -/
theorem generateAttempt_empty (targetLength : ℕ) (temperature topP : ℝ)
    (rand : ℕ → ℝ) (k : ℕ) :
    generateAttempt "" targetLength temperature topP rand k = ("", k + 1) := by
  simp [generateAttempt, genWords_empty]

/-- The empty string always fails validation (length below 10). -/
theorem validateOutput_short (recents : List String) :
    validateOutput "" recents = false := by
  simp [validateOutput]

/-- With empty n-gram tables the generation walk stops immediately. -/
theorem genLoop_nil_tables (temperature topP : ℝ) (rand : ℕ → ℝ) (rem k i : ℕ)
    (cw : String) (out : List String) :
    genLoop [] [] temperature topP rand rem k i none cw out = (out, k) := by
  cases rem <;> simp [genLoop, alistGet]

/-- On the context `"xy"` every attempt deterministically produces `"Xy"`
(or `""` if the draw runs off the one-element starter list) and consumes one
draw: the single word yields no n-grams, so the walk stops at once. -/
theorem generateAttempt_xy (targetLength : ℕ) (temperature topP : ℝ)
    (rand : ℕ → ℝ) (k : ℕ) :
    generateAttempt "xy" targetLength temperature topP rand k = ("Xy", k + 1) ∨
    generateAttempt "xy" targetLength temperature topP rand k = ("", k + 1) := by
  have hng : buildNGrams ["xy"] = { bigrams := [], trigrams := [], starters := [] } := rfl
  simp only [generateAttempt, genWords_xy, List.isEmpty_cons, Bool.false_eq_true, if_false,
    hng, List.isEmpty_nil, if_true, genLoop_nil_tables, List.headD_cons]
  by_cases hidx : (⌊rand k * ((["xy"] : List String).length : ℝ)⌋).toNat = 0
  · left
    rw [hidx]
    rfl
  · right
    have : (["xy"] : List String).getD ((⌊rand k * ((["xy"] : List String).length : ℝ)⌋).toNat) "" = "" := by
      rcases h : (⌊rand k * ((["xy"] : List String).length : ℝ)⌋).toNat with _ | n
      · exact absurd h hidx
      · simp [List.getD]
    rw [this]
    rfl

/-- `"Xy"` always fails validation (length below 10). -/
theorem validateOutput_Xy (recents : List String) :
    validateOutput "Xy" recents = false := by
  unfold validateOutput
  rw [if_pos (by decide : ("Xy" : String).length < 10)]

theorem generateResponse_notReady (st : EngineState) (query : String) (net : Option String)
    (rand : ℕ → ℝ) (k now fuel : ℕ) (h : st.isReady = false) :
    generateResponse st query net rand k now fuel =
      some ({ text := notInitText, sources := [] }, st) := by
  simp [generateResponse, h]

theorem generateResponse_noMatch (st : EngineState) (query : String)
    (rand : ℕ → ℝ) (k now fuel : ℕ)
    (hready : st.isReady = true)
    (hmiss : alistGet (jsTrim (jsToLower query)) st.responseCache = none)
    (hmeta : isMetaQuery query = false)
    (hdict : checkDictionaryInquiry st.dictionary query = none)
    (hwiki : alistGet query st.wikiCache = none)
    (hdocs : retrieveRelevant (tokenize (preprocessQuery query)) st.memory = [] ∨
      ∃ top rest, retrieveRelevant (tokenize (preprocessQuery query)) st.memory = top :: rest ∧
        top.score < 0.1) :
    generateResponse st query none rand k now fuel =
      some ({ text := noMatchText, sources := [] }, st) := by
  have hwiki2 : searchWikipedia query none st = (none, st) := by
    simp [searchWikipedia, hwiki]
  rcases hdocs with hnil | ⟨top, rest, hcons, hlow⟩
  · simp [generateResponse, hready, hmiss, hmeta, hdict, hwiki2, hnil]
  · simp [generateResponse, hready, hmiss, hmeta, hdict, hwiki2, hcons, hlow]

theorem generateResponse_lowConf (st : EngineState) (query : String)
    (rand : ℕ → ℝ) (k now fuel : ℕ) (top : ScoredEntry) (rest : List ScoredEntry)
    (hready : st.isReady = true)
    (hmiss : alistGet (jsTrim (jsToLower query)) st.responseCache = none)
    (hmeta : isMetaQuery query = false)
    (hdict : checkDictionaryInquiry st.dictionary query = none)
    (hwiki : alistGet query st.wikiCache = none)
    (hcons : retrieveRelevant (tokenize (preprocessQuery query)) st.memory = top :: rest)
    (hnotlow : ¬ top.score < 0.1)
    (hnotverb : ¬ ((0.85:ℝ) < top.score ∧ isLongFormQuery (preprocessQuery query) = false))
    (hnotgen : ¬ ((0.15:ℝ) < top.score ∨ isLongFormQuery (preprocessQuery query) = true)) :
    generateResponse st query none rand k now fuel =
      some ({ text := lowConfText, sources := [] }, st) := by
  have hwiki2 : searchWikipedia query none st = (none, st) := by
    simp [searchWikipedia, hwiki]
  simp [generateResponse, hready, hmiss, hmeta, hdict, hwiki2, hcons, hnotlow, hnotverb, hnotgen]

theorem alistSet_length_of_get_none {α : Type} (k : String) (v : α) (m : List (String × α))
    (h : alistGet k m = none) : (alistSet k v m).length = m.length + 1 := by
  induction m with
  | nil => rfl
  | cons p rest ih =>
    obtain ⟨k', v'⟩ := p
    rw [alistGet] at h
    rw [alistSet]
    by_cases hk : k' = k
    · rw [if_pos hk] at h
      cases h
    · rw [if_neg hk] at h
      simp [hk, ih h]

theorem alistGet_eq_none_of_forall {α : Type} (k : String) (m : List (String × α))
    (h : ∀ p ∈ m, p.1 ≠ k) : alistGet k m = none := by
  induction m with
  | nil => rfl
  | cons p rest ih =>
    obtain ⟨k', v'⟩ := p
    rw [alistGet, if_neg (h (k', v') (List.mem_cons_self _ _))]
    exact ih (fun q hq => h q (List.mem_cons_of_mem _ hq))

theorem generateResponse_wiki (st : EngineState) (query w : String)
    (rand : ℕ → ℝ) (k now fuel : ℕ)
    (hready : st.isReady = true)
    (hmiss : alistGet (jsTrim (jsToLower query)) st.responseCache = none)
    (hmeta : isMetaQuery query = false)
    (hdict : checkDictionaryInquiry st.dictionary query = none)
    (hwiki : alistGet query st.wikiCache = none) :
    (generateResponse st query (some w) rand k now fuel).map (fun r => r.2.responseCache) =
      some (alistSet (jsTrim (jsToLower query))
        { text := w, sources := [.tag "Wikipedia"] } st.responseCache) := by
  have hwiki2 : searchWikipedia query (some w) st =
      (some w, { st with wikiCache :=
        (let c := alistSet query w st.wikiCache
         if 50 < c.length then c.drop 1 else c) }) := by
    simp [searchWikipedia, hwiki]
  simp [generateResponse, hready, hmiss, hmeta, hdict, hwiki2, addToHistory]

theorem init_none (st : EngineState) : init none st = (false, st) := rfl

theorem init_some_ready (items : List LoadItem) (st : EngineState) :
    (init (some items) st).1 = true ∧ (init (some items) st).2.isReady = true := by
  simp [init]

theorem retrieveRelevant_nil (qTokens : List String) :
    retrieveRelevant qTokens [] = [] := by
  unfold retrieveRelevant
  split <;> simp

theorem preprocessQuery_apple : preprocessQuery "apple" = "apple" := by decide

theorem tokenize_apple : tokenize "apple" = ["apple"] := by decide

theorem entryScore_lowConf :
    entryScore [lowConfEntry] ["apple"] lowConfEntry = 1/8 := by
  have h1 : (["apple"] : List String).filter (fun t => lowConfEntry.tokens.contains t) =
      ["apple"] := by decide
  have h2 : ((lowConfEntry.tokens ++ ["apple"]).dedup.length) = 8 := by decide
  have h3 : docFreq [lowConfEntry] "apple" = 1 := by decide
  simp only [entryScore, h1, h2, h3]
  norm_num [h3, Real.log_one]

theorem retrieveRelevant_lowConf :
    retrieveRelevant ["apple"] [lowConfEntry] = [⟨lowConfEntry, 1/8⟩] := by
  unfold retrieveRelevant
  rw [if_neg (by decide)]
  simp only [List.map_cons, List.map_nil, entryScore_lowConf]
  have hfilter : (([(⟨lowConfEntry, 1/8⟩ : ScoredEntry)]).filter
      (fun s => decide ((0.05:ℝ) < s.score))) = [⟨lowConfEntry, 1/8⟩] := by
    rw [List.filter_cons]
    rw [if_pos (by norm_num)]
    rfl
  rw [hfilter, List.mergeSort_singleton]
  rfl

/-! ### Claim theorems -/

/-- Claim C1 (failing evaluation).  The claim states that the session response
cache holds at most 100 entries on every path of `generateResponse` that
writes to it.  The external-knowledge path (engine.js line 224) writes to the
cache with no capacity check: starting from a ready engine whose response
cache holds exactly 100 entries, one more Wikipedia-answered query leaves 101
entries — the capacity bound and FIFO eviction are absent on this write path
(they exist only on the local-generation path, lines 290–294). -/
theorem C1_response_cache_exceeds_capacity :
    (generateResponse fullCacheState "zebra" (some "Zebras are striped animals.")
        (fun _ => 0) 0 0 0).map (fun r => r.2.responseCache.length) = some 101 := by
  have hkey : jsTrim (jsToLower "zebra") = "zebra" := by decide
  have hfresh : alistGet "zebra" fullCacheState.responseCache = none := by
    refine alistGet_eq_none_of_forall _ _ (fun p hp => ?_)
    have hp2 : p ∈ (List.range 100).map (fun i => ("k" ++ toString i, dummyResult)) := hp
    obtain ⟨i, hi, rfl⟩ := List.mem_map.1 hp2
    revert hi
    have hall : ∀ i ∈ List.range 100, ¬ ("k" ++ toString i) = "zebra" := by decide
    exact fun hi => hall i hi
  have h := generateResponse_wiki fullCacheState "zebra" "Zebras are striped animals."
    (fun _ => 0) 0 0 0 rfl (hkey ▸ hfresh) (by decide) rfl rfl
  rcases hg : generateResponse fullCacheState "zebra" (some "Zebras are striped animals.")
      (fun _ => 0) 0 0 0 with _ | ⟨res, st'⟩
  · rw [hg] at h
    exact absurd h (by simp)
  · rw [hg] at h
    simp only [Option.map_some'] at h ⊢
    rw [hkey] at h
    have hrc : st'.responseCache = alistSet "zebra"
        { text := "Zebras are striped animals.", sources := [SourceTag.tag "Wikipedia"] }
        fullCacheState.responseCache :=
      Option.some.inj h
    rw [hrc, alistSet_length_of_get_none _ _ _ hfresh]
    norm_num [fullCacheState]

/-- Claim C2 (failing evaluation).  The claim states that when the validator
rejects, `generateNeuralText` regenerates at most once and terminates on every
input.  In the source the retry recurses with no depth limit (line 435,
despite its `// Retry once` comment): on the context `"xy"` every attempt
deterministically produces `"Xy"` (or `""`), which the validator always
rejects as too short, so no attempt budget whatsoever suffices — the source
recursion never returns. -/
theorem C2_validator_retry_never_terminates (fuel targetLength : ℕ)
    (temperature topP : ℝ) (recents : List String) (rand : ℕ → ℝ) (k : ℕ) :
    generateNeuralText fuel "xy" targetLength temperature topP recents rand k = none := by
  induction fuel generalizing k with
  | zero => rfl
  | succ n ih =>
    rw [generateNeuralText]
    rcases generateAttempt_xy targetLength temperature topP rand k with h | h <;>
      rw [h] <;> simp only [validateOutput_Xy, validateOutput_short, Bool.false_eq_true,
        if_false] <;> exact ih (k + 1)

/-- Claim C3 (counterexample).  The claim states that an empty payload leaves
the index not-ready; in fact JS `![]` is `false`, so `init([])` runs to
completion, marks the engine ready and returns `true`. -/
theorem C3_counterexample :
    (init (some []) initialState).1 = true ∧
    (init (some []) initialState).2.isReady = true :=
  ⟨rfl, rfl⟩

/-- Claim C3 (amended): `init(payload, logSink)` returns `false` iff the
payload is absent; for an *absent* payload the index stays not-ready (the
state is untouched), and while the index is not ready every call to the answer
entry point short-circuits with the fixed "not initialized" result and leaves
the state (in particular the caches) unchanged.  An *empty* payload is
accepted: `init` returns `true` and marks the index ready. -/
theorem C3_init_behaviour :
    (∀ st, init none st = (false, st)) ∧
    (∀ items st, (init (some items) st).1 = true ∧ (init (some items) st).2.isReady = true) ∧
    (∀ (st : EngineState) (query : String) (net : Option String) (rand : ℕ → ℝ)
      (k now fuel : ℕ), st.isReady = false →
      generateResponse st query net rand k now fuel =
        some ({ text := notInitText, sources := [] }, st)) :=
  ⟨init_none, init_some_ready, generateResponse_notReady⟩

/-- Witness for C3's amended theorem: the fresh engine is not ready, and a
query against it returns the fixed result with the state unchanged. -/
theorem C3_witness :
    generateResponse initialState "hello" none (fun _ => 0) 0 0 0 =
      some ({ text := notInitText, sources := [] }, initialState) :=
  C3_init_behaviour.2.2 initialState "hello" none (fun _ => 0) 0 0 0 rfl

/-- Claim C4: on every nonempty frequency table of positive counts and every
temperature > 0, the candidate distribution used by `sampleWithTemperature`
(normalize, then exponentiate by `1/temperature`, then renormalize) equals the
spec's reference definition (exponentiate raw counts by `1/temperature`, then
normalize); and at temperature 1 each candidate's probability is exactly its
raw count divided by the total (proportional to the raw count). -/
theorem C4_temperature_distribution (freq : List (String × ℝ)) (temperature : ℝ)
    (hne : freq ≠ []) (hpos : ∀ p ∈ freq, 0 < p.2) (htemp : 0 < temperature) :
    samplerProbs freq temperature = specProbs freq temperature ∧
    samplerProbs freq 1 = freq.map (fun p => (p.1, p.2 / (freq.map Prod.snd).sum)) :=
  ⟨samplerProbs_eq_specProbs freq temperature hne hpos,
   samplerProbs_temperature_one freq hne hpos⟩

/-- Witness for C4 at the table `{a: 1, b: 3}` and temperature 2. -/
theorem C4_witness :
    samplerProbs [("a", 1), ("b", 3)] 2 = specProbs [("a", 1), ("b", 3)] 2 ∧
    samplerProbs [("a", 1), ("b", 3)] 1 =
      ([("a", (1:ℝ)), ("b", 3)]).map
        (fun p => (p.1, p.2 / (([("a", (1:ℝ)), ("b", 3)]).map Prod.snd).sum)) :=
  C4_temperature_distribution [("a", 1), ("b", 3)] 2 (by simp)
    (by intro p hp; fin_cases hp <;> norm_num) (by norm_num)

/-- Claim C5: for every tokenized query and corpus, `retrieveRelevant` returns
a list sorted by descending score, of length at most 15, containing only
entries with score strictly above 0.05 and score within `[0, 1]`; and an entry
sharing no token with the query receives score 0. -/
theorem C5_retrieval_properties (qTokens : List String) (memory : List MemEntry) :
    (retrieveRelevant qTokens memory).Pairwise (fun a b => b.score ≤ a.score) ∧
    (retrieveRelevant qTokens memory).length ≤ 15 ∧
    (∀ s ∈ retrieveRelevant qTokens memory,
      (0.05:ℝ) < s.score ∧ 0 ≤ s.score ∧ s.score ≤ 1) ∧
    (∀ e ∈ memory, (∀ t ∈ qTokens, t ∉ e.tokens) → entryScore memory qTokens e = 0) := by
  refine ⟨retrieveRelevant_sorted _ _, retrieveRelevant_length _ _, ?_, ?_⟩
  · intro s hs
    obtain ⟨hdoc, hscore, hgt⟩ := mem_retrieveRelevant _ _ s hs
    obtain ⟨h0, h1⟩ := entryScore_mem_Icc memory qTokens s.doc hdoc
    exact ⟨hgt, hscore ▸ h0, hscore ▸ h1⟩
  · exact fun e _ h => entryScore_of_no_overlap memory qTokens e h

/-- Witness for C5: the crafted single-entry corpus puts `⟨lowConfEntry, 1/8⟩`
in the retrieval result for `["apple"]` (bounds apply to it), and the
overlap-free query `["zzz"]` scores 0 against the same entry. -/
theorem C5_witness :
    ((0.05:ℝ) < (1/8 : ℝ) ∧ (0:ℝ) ≤ (1/8 : ℝ) ∧ (1/8 : ℝ) ≤ 1) ∧
    entryScore [lowConfEntry] ["zzz"] lowConfEntry = 0 := by
  constructor
  · exact (C5_retrieval_properties ["apple"] [lowConfEntry]).2.2.1
      ⟨lowConfEntry, 1/8⟩ (by rw [retrieveRelevant_lowConf]; exact List.mem_singleton_self _)
  · exact (C5_retrieval_properties ["zzz"] [lowConfEntry]).2.2.2 lowConfEntry
      (List.mem_singleton_self _) (by decide)

/-- Claim C6: the nucleus built by `sampleWithTemperature` is the smallest
nonempty prefix of the probability-sorted candidate list whose cumulative
probability reaches `topP` (the whole list when none does), so it always
contains at least the first candidate; decreasing `topP` never increases the
nucleus size; and with `topP = 1` on a positive distribution of total mass 1
the nucleus is the full candidate list, with no truncation. -/
theorem C6_nucleus_properties :
    (∀ (probs : List (String × ℝ)) (topP : ℝ), ∃ k,
      buildNucleus topP 0 probs = probs.take k ∧ k ≤ probs.length ∧
      (probs ≠ [] → 1 ≤ k) ∧
      (topP ≤ ((probs.take k).map Prod.snd).sum ∨ k = probs.length) ∧
      (∀ m, 1 ≤ m → m < k → ((probs.take m).map Prod.snd).sum < topP)) ∧
    (∀ (probs : List (String × ℝ)) (topP₁ topP₂ : ℝ), topP₁ ≤ topP₂ →
      (buildNucleus topP₁ 0 probs).length ≤ (buildNucleus topP₂ 0 probs).length) ∧
    (∀ probs : List (String × ℝ), (∀ p ∈ probs, 0 < p.2) →
      (probs.map Prod.snd).sum = 1 → buildNucleus 1 0 probs = probs) := by
  refine ⟨fun probs topP => ?_, fun probs t1 t2 h => buildNucleus_mono probs 0 t1 t2 h,
    fun probs hpos hsum => buildNucleus_full probs 0 hpos (by simpa using hsum)⟩
  obtain ⟨k, h1, h2, h3, h4, h5⟩ := buildNucleus_take topP probs 0
  exact ⟨k, h1, h2, h3, by simpa using h4, fun m hm1 hm2 => by simpa using h5 m hm1 hm2⟩

/-- Witness for C6 on the two-candidate distribution `[1/2, 1/2]`:
monotonicity at `topP` 1/2 ≤ 3/4, and the full nucleus at `topP = 1`. -/
theorem C6_witness :
    (buildNucleus (1/2 : ℝ) 0 [("a", (1:ℝ)/2), ("b", 1/2)]).length ≤
      (buildNucleus (3/4 : ℝ) 0 [("a", (1:ℝ)/2), ("b", 1/2)]).length ∧
    buildNucleus 1 0 [("a", (1:ℝ)/2), ("b", 1/2)] = [("a", (1:ℝ)/2), ("b", 1/2)] := by
  constructor
  · exact C6_nucleus_properties.2.1 [("a", (1:ℝ)/2), ("b", 1/2)] (1/2) (3/4) (by norm_num)
  · exact C6_nucleus_properties.2.2 [("a", (1:ℝ)/2), ("b", 1/2)]
      (by intro p hp; fin_cases hp <;> norm_num) (by norm_num)

/-- Claim C7 (counterexample).  The claim states `computeSimilarity` of two
empty strings is 0; in fact JS `"".split(/\s+/)` is `[""]`, so both word sets
are `{""}` and the similarity is 1. -/
theorem C7_counterexample : computeSimilarity "" "" ≠ 0 := by
  rw [computeSimilarity_self]
  norm_num

/-- Claim C7 (amended): `computeSimilarity(a, b)` equals the Jaccard index of
the lowercase whitespace-split word sets of a and b, where JS split semantics
give the empty string the word set `{""}` (so the empty-union guard is dead);
`computeSimilarity(x, x) = 1` for every x, the empty string included (two
empty strings give 1, not 0); and `computeSimilarity(x, y) = 0` whenever the
split word sets of x and y share no element. -/
theorem C7_similarity_amended :
    (∀ x y, computeSimilarity x y =
      ((jsWordSet x ∩ jsWordSet y).card : ℚ) / ((jsWordSet x ∪ jsWordSet y).card)) ∧
    (∀ x, computeSimilarity x x = 1) ∧
    (∀ x y, jsWordSet x ∩ jsWordSet y = ∅ → computeSimilarity x y = 0) ∧
    computeSimilarity "" "" = 1 :=
  ⟨computeSimilarity_eq_jaccard, computeSimilarity_self,
   computeSimilarity_of_disjoint, computeSimilarity_self ""⟩

/-- Witness for C7's amended theorem: self-similarity 1 and word-disjoint
similarity 0 at concrete strings. -/
theorem C7_witness :
    computeSimilarity "Hello world" "Hello world" = 1 ∧
    computeSimilarity "abc" "xyz" = 0 :=
  ⟨C7_similarity_amended.2.1 "Hello world",
   C7_similarity_amended.2.2.1 "abc" "xyz" (by decide)⟩

/-- Claim C8 (failing evaluation).  The claim states that on a context with no
words `generateNeuralText` returns the context text unchanged.  There is no
such guard in the source: with no words the starter list gets `words[0] =
undefined`, the walk finds no candidate pool, `[undefined].join(" ")` produces
`""`, validation rejects it (length < 10), and the retry recursion never
returns — for every attempt budget the fueled model yields `none`, never the
context text. -/
theorem C8_wordless_context_never_returns (fuel targetLength : ℕ)
    (temperature topP : ℝ) (recents : List String) (rand : ℕ → ℝ) (k : ℕ) :
    generateNeuralText fuel "" targetLength temperature topP recents rand k = none := by
  induction fuel generalizing k with
  | zero => rfl
  | succ n ih =>
    rw [generateNeuralText]
    rw [generateAttempt_empty]
    rw [validateOutput_short]
    simp only [Bool.false_eq_true, if_false]
    exact ih (k + 1)

/-- Claim C9: `sampleWithTemperature` returns `none` on the empty frequency
table, and on any single-candidate table it deterministically returns that
candidate, for every count, temperature, `topP` and random draw. -/
theorem C9_sampler_edge_cases :
    (∀ temperature topP rand01 : ℝ,
      sampleWithTemperature [] temperature topP rand01 = none) ∧
    (∀ (w : String) (c temperature topP rand01 : ℝ),
      sampleWithTemperature [(w, c)] temperature topP rand01 = some w) :=
  ⟨sampleWithTemperature_empty, sampleWithTemperature_single⟩

/-- Claim C10: on the NoMatch path (nothing retrieved, or top score below 0.1)
and on the LowConfidence path (top score in the ambiguous band, no long-form
intent), `generateResponse` returns the fixed result with the engine state —
response cache, conversation history, recent-output window (and everything
else) — exactly as it was before the call. -/
theorem C10_error_paths_atomic :
    (∀ (st : EngineState) (query : String) (rand : ℕ → ℝ) (k now fuel : ℕ),
      st.isReady = true →
      alistGet (jsTrim (jsToLower query)) st.responseCache = none →
      isMetaQuery query = false →
      checkDictionaryInquiry st.dictionary query = none →
      alistGet query st.wikiCache = none →
      (retrieveRelevant (tokenize (preprocessQuery query)) st.memory = [] ∨
        ∃ top rest, retrieveRelevant (tokenize (preprocessQuery query)) st.memory =
          top :: rest ∧ top.score < 0.1) →
      generateResponse st query none rand k now fuel =
        some ({ text := noMatchText, sources := [] }, st)) ∧
    (∀ (st : EngineState) (query : String) (rand : ℕ → ℝ) (k now fuel : ℕ)
      (top : ScoredEntry) (rest : List ScoredEntry),
      st.isReady = true →
      alistGet (jsTrim (jsToLower query)) st.responseCache = none →
      isMetaQuery query = false →
      checkDictionaryInquiry st.dictionary query = none →
      alistGet query st.wikiCache = none →
      retrieveRelevant (tokenize (preprocessQuery query)) st.memory = top :: rest →
      ¬ top.score < 0.1 →
      ¬ ((0.85:ℝ) < top.score ∧ isLongFormQuery (preprocessQuery query) = false) →
      ¬ ((0.15:ℝ) < top.score ∨ isLongFormQuery (preprocessQuery query) = true) →
      generateResponse st query none rand k now fuel =
        some ({ text := lowConfText, sources := [] }, st)) :=
  ⟨generateResponse_noMatch, generateResponse_lowConf⟩

/-- Witness for C10: a ready empty-corpus engine hits the NoMatch path on
`"hello"`, and the crafted `lowConfState` hits the LowConfidence path on
`"apple"` (score exactly 1/8); both return their state unchanged. -/
theorem C10_witness :
    generateResponse emptyReadyState "hello" none (fun _ => 0) 0 0 0 =
      some ({ text := noMatchText, sources := [] }, emptyReadyState) ∧
    generateResponse lowConfState "apple" none (fun _ => 0) 0 0 0 =
      some ({ text := lowConfText, sources := [] }, lowConfState) := by
  constructor
  · exact C10_error_paths_atomic.1 emptyReadyState "hello" (fun _ => 0) 0 0 0
      rfl rfl (by decide) rfl rfl (Or.inl (retrieveRelevant_nil _))
  · refine C10_error_paths_atomic.2 lowConfState "apple" (fun _ => 0) 0 0 0
      ⟨lowConfEntry, 1/8⟩ [] rfl rfl (by decide) rfl rfl ?_ ?_ ?_ ?_
    · rw [preprocessQuery_apple, tokenize_apple]
      exact retrieveRelevant_lowConf
    · show ¬ (1/8 : ℝ) < 0.1
      norm_num
    · rintro ⟨h85, _⟩
      revert h85
      show ¬ (0.85:ℝ) < (1/8 : ℝ)
      norm_num
    · rintro (h | h)
      · revert h
        show ¬ (0.15:ℝ) < (1/8 : ℝ)
        norm_num
      · rw [preprocessQuery_apple] at h
        exact absurd h (by decide)

end Guahh
